import Mathlib

/-!
Verification of the binjitsu ROP gadget engine
(`pwnlib/rop/gadgetfinder.py`) against its natural-language
specification.  The Python source is shallowly embedded: each class
method that a claim touches becomes a Lean definition whose control
flow mirrors the Python line by line; the external collaborators
(amoco symbolic execution, capstone disassembly, the z3 solver) are
passed in as explicit function parameters, exactly as the spec treats
them ("consumed as a capability").
-/

namespace Binjitsu

/-- Does `needle` occur as a contiguous run in `hay`? -/
def containsSubAux (needle : List Char) : List Char → Bool
  | [] => needle.isPrefixOf []
  | c :: rest => needle.isPrefixOf (c :: rest) || containsSubAux needle rest

/-- Python `needle in hay` on strings (substring containment). -/
def containsStr (needle hay : String) : Bool :=
  containsSubAux needle.toList hay.toList

/-- Modelled from the spec: `Mem` (pwnlib/rop/gadgets.py is not part of
the provided sources) — "symbolic reference: base expression, signed
displacement, access size in bits" (§3 Memory Location). -/
structure Mem where
  reg_str : String
  offset  : Int
  size    : Nat
deriving Repr, DecidableEq

/-- Value recorded in the classifier's effect map for one destination:
the right-hand sides produced by the `if/elif` chain of
`GadgetClassifier.classify` (memory read, register alias, constant,
list/generator, or a best-effort location descriptor). -/
inductive RegVal where
  | mem     (m : Mem)
  | regName (s : String)
  | cstVal  (v : Int)
  | lstVal
  | locs    (l : List String)
deriving Repr, DecidableEq

/-- Modelled from the spec: `Gadget` (pwnlib/rop/gadgets.py is not part
of the provided sources) — "durable result: address, instruction list,
raw bytes, effect map, net stack-pointer displacement" (§3 Classified
Gadget).  Constructed as `Gadget(address, insns, reg, move, bytes)`. -/
structure Gadget where
  address : Int
  insns   : List String
  regs    : List (String × RegVal)
  move    : Int
  bytes   : List Nat
deriving Repr, DecidableEq

/-- Symbolic expression returned by the amoco mapper for one output:
the shapes `classify` discriminates on (`_is_mem`, `_is_reg`,
`_is_cst`, list/generator, anything else).  `lin` is a register-plus-
constant arithmetic expression (the usual shape of the stack-pointer
update, consumed by `extract_offset`). -/
inductive AExpr where
  | mem   (base : List String) (disp : Int) (size : Nat)
  | reg   (name : String)
  | cst   (value : Int)
  | lin   (base : String) (off : Int)
  | lst
  | other (ls : List String)
deriving Repr, DecidableEq

def AExpr.isMem : AExpr → Bool
  | .mem _ _ _ => true
  | _ => false

/-- `inputs.a.disp` for a memory expression (0 elsewhere; `classify`
only reads it under an `_is_mem` guard). -/
def AExpr.memDisp : AExpr → Int
  | .mem _ d _ => d
  | _ => 0

/-- Modelled from the spec: amoco's `locations_of` (an external
collaborator, §1) — the registers contributing to an expression. -/
def locationsOf : AExpr → List String
  | .mem b _ _ => b
  | .reg n => [n]
  | .cst _ => []
  | .lin b _ => [b]
  | .lst => []
  | .other ls => ls

/-- Modelled from the spec: amoco's `extract_offset` (an external
collaborator) — the constant displacement of a linear
(constant + base) expression; the code uses `extract_offset(inputs)[1]`
on the stack-pointer output (§4.5: "record the signed displacement of
the linear (constant + base) expression as move"). -/
def extractOffset : AExpr → Int
  | .lin _ o => o
  | .cst v => v
  | _ => 0

/-- One output of the amoco mapper iteration: `reg_out` with its
`_is_ptr` flag. -/
structure MOut where
  name   : String
  is_ptr : Bool
deriving Repr, DecidableEq

/-- One `(reg_out, inputs)` pair of the mapper. -/
abbrev MEntry := MOut × AExpr

/-- Python dict assignment `reg[k] = v`: replace an existing binding in
place, otherwise append. -/
def updateReg : List (String × RegVal) → String → RegVal → List (String × RegVal)
  | [], k, v => [(k, v)]
  | (k', v') :: rest, k, v =>
      if k' = k then (k', v) :: rest else (k', v') :: updateReg rest k v

/-- The `if/elif` chain of `classify` that turns `inputs` into the
recorded effect-map value (lines 120-147 of gadgetfinder.py). -/
def toRegVal : AExpr → RegVal
  | .mem b d sz => .mem ⟨String.intercalate "_" b, d, sz⟩
  | .reg n => .regName n
  | .cst v => .cstVal v
  | .lst => .lstVal
  | e => .locs (locationsOf e)

/-- The main loop of `GadgetClassifier.classify` (lines 102-147):
threads the effect map `reg`, the stack delta `move` and the recorded
instruction-pointer displacement `ip_move` through the mapper entries;
returns `none` when an output is a pointer (`return None`). -/
def classifyLoop : List MEntry → List (String × RegVal) → Int → Int →
    Option (List (String × RegVal) × Int × Int)
  | [], reg, move, ip => some (reg, move, ip)
  | (out, inp) :: rest, reg, move, ip =>
      if out.is_ptr then none
      else if containsStr "flags" out.name then classifyLoop rest reg move ip
      else if containsStr "sp" out.name then
        classifyLoop rest reg (extractOffset inp) ip
      else if (containsStr "ip" out.name || containsStr "pc" out.name)
              && inp.isMem then
        classifyLoop rest reg move inp.memDisp
      else classifyLoop rest (updateReg reg out.name (toRegVal inp)) move ip

/-- Input candidate dict: `{"address": .., "gadget": .., "bytes": ..}`. -/
structure GadgetInput where
  address : Int
  insns   : List String
  bytes   : List Nat
deriving Repr, DecidableEq

/-- `GadgetMapper.__init__`: word size / alignment per architecture. -/
def archAlign : String → Int
  | "i386"  => 4
  | "amd64" => 8
  | "arm"   => 4
  | _ => 4

/-- `GadgetClassifier.classify` (lines 90-152).  `symExec` is the
external `sym_exec_gadget_and_get_mapper` capability: raw bytes to an
effect mapping, or failure. -/
def classify (symExec : List Nat → Option (List MEntry)) (align : Int)
    (g : GadgetInput) : Option Gadget :=
  match symExec g.bytes with
  | none => none
  | some entries =>
      match classifyLoop entries [] 0 0 with
      | none => none
      | some (reg, move, ip) =>
          if ip = move - align then
            some ⟨g.address, g.insns, reg, move, g.bytes⟩
          else none

/-- `GadgetClassifier.__call__` (lines 85-88): calls `classify`, and on
a truthy result executes `outs.append(gad)` where `outs` is an
undefined global name (the attribute is `self.outs`), so Python raises
`NameError`.  The state is the instance's `self.outs` list; an `.error`
result models the raised exception. -/
def classifierCall (symExec : List Nat → Option (List MEntry)) (align : Int)
    (outsState : List Gadget) (g : GadgetInput) :
    Except String (List Gadget) :=
  match classify symExec align g with
  | some _ => .error "NameError: global name outs is not defined"
  | none => .ok outsState

/-! ## GadgetMapper.sym_exec_gadget_and_get_mapper (lines 60-76)

The amoco objects (`mapper`, `block.map`, the lifter) are opaque to the
repository; they are modelled as `Nat` handles together with explicit
function parameters for the operations the source invokes on them. -/

/-- One amoco basic block as the source consumes it: its `block.map`
handle and whether its last instruction's mnemonic is `call`. -/
structure ABlock where
  blockMap   : Nat
  lastIsCall : Bool
deriving Repr, DecidableEq

/-- The `for block in blocks` loop body (lines 66-76).  `comp mp bm`
models `mp >>= block.map` (returning `none` when it raises, i.e. the
`except: return None` branch).  Both branches of the `try` statement
execute `return`, so the loop body always leaves the function during
its first iteration; an exhausted loop would fall off the function
(Python's implicit `return None`). -/
def symExecLoop (neutralizeRet : Nat → Nat) (comp : Nat → Nat → Option Nat) :
    Nat → List ABlock → Option Nat
  | _, [] => none
  | mp, b :: _rest =>
      let bm := if b.lastIsCall then neutralizeRet b.blockMap else b.blockMap
      comp mp bm

/-- `sym_exec_gadget_and_get_mapper` (lines 60-76): lift the code bytes
into basic blocks (`lift` models `amoco.lsweep(p).iterblocks()`),
assert the block list is nonempty, start from the empty mapper
(`emptyMapper` models `amoco.cas.mapper.mapper()`), and run the loop.
`.error ()` models the failing `assert`. -/
def sym_exec_gadget_and_get_mapper (lift : List Nat → List ABlock)
    (neutralizeRet : Nat → Nat) (comp : Nat → Nat → Option Nat)
    (emptyMapper : Nat) (code : List Nat) : Except Unit (Option Nat) :=
  let blocks := lift code
  if blocks = [] then .error ()
  else .ok (symExecLoop neutralizeRet comp emptyMapper blocks)

/-! ## GadgetSolver (lines 155-207) -/

/-- Association-list lookup with Python dict semantics
(`d[k]` / `k in d.keys()`). -/
def alookup {α : Type} : List (String × α) → String → Option α
  | [], _ => none
  | (k', v) :: rest, k => if k' = k then some v else alookup rest k

/-- Python `OrderedDict` insertion: an existing key keeps its position
and takes the new value, a new key is appended. -/
def odInsert : List (Int × Int) → Int × Int → List (Int × Int)
  | [], p => [p]
  | (k, v) :: rest, (k', v') =>
      if k = k' then (k, v') :: rest else (k, v) :: odInsert rest (k', v')

/-- `OrderedDict(sorted(stack_converted, key=itemgetter(0)))`
(line 197): stable sort ascending by the signed stack offset, then
build the ordered dict. -/
def pySortedDict (l : List (Int × Int)) : List (Int × Int) :=
  (l.mergeSort (fun a b => a.1 ≤ b.1)).foldl odInsert []

/-- The `for reg, constraint in gadget_mapper` loop of `verify_path`
(lines 173-199), threading `move` and `stack_changed`.  `prove cond c`
models `self._prove(conditions[str(reg)] == constraint.to_smtlib())`
followed by the model extraction `model[model[1]].as_list()[:num]`
(lines 179, 190-191): `none` is an unsatisfiable constraint, `some
cells` the solver's stack-cell assignments. -/
def verifyLoop (prove : Int → AExpr → Option (List (Int × Int)))
    (conditions : List (String × Int)) :
    List MEntry → Int → List (Int × Int) → Option (Int × List (Int × Int))
  | [], move, stack =>
      if stack = [] then none else some (move, pySortedDict stack)
  | (out, c) :: rest, move, stack =>
      if containsStr "sp" out.name then
        verifyLoop prove conditions rest (extractOffset c) stack
      else
        match alookup conditions out.name with
        | none => verifyLoop prove conditions rest move stack
        | some cond =>
            match prove cond c with
            | none => none
            | some cells =>
                if c.isMem && (locationsOf c).any (fun i => containsStr "sp" i)
                then verifyLoop prove conditions rest move (stack ++ cells)
                else verifyLoop prove conditions rest move stack

/-- `GadgetSolver.verify_path` (lines 167-199).  `symExec` is the
bytes-to-mapper capability; when it yields `None`, the `for` statement
iterates over `None` and Python raises `TypeError` (modelled as
`.error`). -/
def verify_path (symExec : List Nat → Option (List MEntry))
    (prove : Int → AExpr → Option (List (Int × Int)))
    (path : List Gadget) (conditions : List (String × Int)) :
    Except String (Option (Int × List (Int × Int))) :=
  let concateBytes := (path.map (fun g => g.bytes)).flatten
  match symExec concateBytes with
  | none => .error "TypeError: NoneType object is not iterable"
  | some entries => .ok (verifyLoop prove conditions entries 0 [])

/-- `GadgetSolver.__call__` (lines 201-207): `move, stack =
self.verify_path(...)` raises `TypeError` when `verify_path` returns
`None`; otherwise `if not stack: return None` and finally `return
(move, sorted_stack)` — `sorted_stack` is an undefined name, so Python
raises `NameError`. -/
def solverCall (symExec : List Nat → Option (List MEntry))
    (prove : Int → AExpr → Option (List (Int × Int)))
    (path : List Gadget) (conditions : List (String × Int)) :
    Except String (Option (Int × List (Int × Int))) :=
  match verify_path symExec prove path conditions with
  | .error e => .error e
  | .ok none => .error "TypeError: cannot unpack non-iterable NoneType"
  | .ok (some (_move, stack)) =>
      if stack = [] then .ok none
      else .error "NameError: global name sorted_stack is not defined"

/-! ## Gadget cache (lines 436-464) -/

/-- The identity the cache uses for a binary: its content hash
(`hashlib.sha256(elf.get_data()).hexdigest()`), the file's nominal
base (`elf.load_addr`) and its runtime load address (`elf.address`). -/
structure ElfFile where
  sha       : String
  load_addr : Int
  address   : Int
deriving Repr, DecidableEq

/-- A cached mapping: gadget address to raw bytes. -/
abbrev CacheMapping := List (Int × List Nat)

/-- The cache directory contents: file name (the content hash, from
`__get_cachefile_name`) to the file's raw text. -/
abbrev CacheStore := List (String × String)

/-- `__get_cachefile_name` (lines 436-444): the cache file is named by
the sha256 of the binary's contents, not by its path. -/
def cacheFileName (elf : ElfFile) : String := elf.sha

/-- `file(name, 'w+').write(..)`: create or replace the file. -/
def storeWrite : CacheStore → String → String → CacheStore
  | [], k, v => [(k, v)]
  | (k', v') :: rest, k, v =>
      if k' = k then (k, v) :: rest else (k', v') :: storeWrite rest k v

/-- `GadgetFinder.__cache_save` (lines 460-464): shift every address to
its 'original' (file-relative) form `k + load_addr - address`, then
write `repr(data)` (`serialize`) to the cache file. -/
def cache_save (serialize : CacheMapping → String) (store : CacheStore)
    (elf : ElfFile) (data : CacheMapping) : CacheStore :=
  storeWrite store (cacheFileName elf)
    (serialize (data.map (fun kv => (kv.1 + elf.load_addr - elf.address, kv.2))))

/-- `GadgetFinder.__cache_load` (lines 446-458): a missing file returns
`None` (a miss); otherwise `eval(file(filename).read())` deserializes
the entry (`parse`; when it fails Python raises, modelled `.error`),
and every address is shifted back by `k - load_addr + address`. -/
def cache_load (parse : String → Option CacheMapping) (store : CacheStore)
    (elf : ElfFile) : Except String (Option CacheMapping) :=
  match alookup store (cacheFileName elf) with
  | none => .ok none
  | some content =>
      match parse content with
      | none => .error "eval raised on corrupt cache entry"
      | some gadgets =>
          .ok (some (gadgets.map
            (fun kv => (kv.1 - elf.load_addr + elf.address, kv.2))))

/-! ## GadgetFinder construction (lines 212-275) -/

/-- The capstone architecture constant selected by
`arch_mode_gadget` (lines 264-268): `CS_ARCH_X86` for both i386 and
amd64, `CS_ARCH_ARM` for arm. -/
inductive CapArch where
  | x86
  | arm
deriving Repr, DecidableEq

/-- `MAX_SIZE` (line 28). -/
def MAX_SIZE : Nat := 100

/-- Lines 273-275: `self.need_filter = True` exactly when the selected
capstone architecture is x86 and the first binary's file size is at
least `MAX_SIZE*1000` bytes. -/
def needFilterOf (arch : CapArch) (fileSize : Nat) : Bool :=
  arch = CapArch.x86 && fileSize ≥ MAX_SIZE * 1000

/-! ## Gadget scanner (lines 305-362) -/

/-- Python index clamping for slices: negative indices count from the
end, everything is clamped into `[0, len]`. -/
def pyIndex (len : Nat) (i : Int) : Nat :=
  if i < 0 then (Int.toNat (len + i)) else min i.toNat len

/-- Python slice `l[s:e]`. -/
def pySlice {α : Type} (l : List α) (s e : Int) : List α :=
  let s' := pyIndex l.length s
  let e' := pyIndex l.length e
  (l.drop s').take (e' - s')

/-! ### __filter_for_big_binary_or_elf32 (lines 364-386)

Each compiled regex of the source becomes a character-level predicate
with `re.match` (anchored-at-start) semantics; `.` matches any
character except a newline, `\S` any non-whitespace character. -/

/-- `re.match(r'^pop (.{3})', s)`. -/
def popMatch (s : String) : Bool :=
  match s.toList with
  | 'p' :: 'o' :: 'p' :: ' ' :: c1 :: c2 :: c3 :: _ =>
      c1 ≠ '\n' && c2 ≠ '\n' && c3 ≠ '\n'
  | _ => false

/-- `re.match(r'^add .sp, (\S+)$', s)`. -/
def addMatch (s : String) : Bool :=
  match s.toList with
  | 'a' :: 'd' :: 'd' :: ' ' :: c :: 's' :: 'p' :: ',' :: ' ' :: rest =>
      c ≠ '\n' && !rest.isEmpty && rest.all (fun ch => !ch.isWhitespace)
  | _ => false

/-- `re.match(r'^ret$', s)`. -/
def retMatch (s : String) : Bool := s = "ret"

/-- `re.match(r'^leave$', s)`. -/
def leaveMatch (s : String) : Bool := s = "leave"

/-- `re.match(r'^mov (.{3}), (.{3})', s)`. -/
def movMatch (s : String) : Bool :=
  match s.toList with
  | 'm' :: 'o' :: 'v' :: ' ' :: a1 :: a2 :: a3 :: ',' :: ' '
      :: b1 :: b2 :: b3 :: _ =>
      a1 ≠ '\n' && a2 ≠ '\n' && a3 ≠ '\n' &&
      b1 ≠ '\n' && b2 ≠ '\n' && b3 ≠ '\n'
  | _ => false

/-- `re.match(r'^xchg (.{3}), (.{3})', s)`. -/
def xchgMatch (s : String) : Bool :=
  match s.toList with
  | 'x' :: 'c' :: 'h' :: 'g' :: ' ' :: a1 :: a2 :: a3 :: ',' :: ' '
      :: b1 :: b2 :: b3 :: _ =>
      a1 ≠ '\n' && a2 ≠ '\n' && a3 ≠ '\n' &&
      b1 ≠ '\n' && b2 ≠ '\n' && b3 ≠ '\n'
  | _ => false

/-- `re.match(r'int +0x80', s)`: "int", one or more spaces, "0x80". -/
def int80Match (s : String) : Bool :=
  match s.toList with
  | 'i' :: 'n' :: 't' :: ' ' :: rest =>
      "0x80".toList.isPrefixOf (rest.dropWhile (fun ch => ch = ' '))
  | _ => false

/-- `re.match(r'^syscall$', s)`. -/
def syscallMatch (s : String) : Bool := s = "syscall"

/-- `re.match(r'^sysenter$', s)`. -/
def sysenterMatch (s : String) : Bool := s = "sysenter"

/-- The `valid` lambda (lines 378-379): any of the nine patterns
matches the instruction text. -/
def validBigBinary (s : String) : Bool :=
  popMatch s || addMatch s || retMatch s || leaveMatch s || movMatch s ||
  xchgMatch s || int80Match s || syscallMatch s || sysenterMatch s

/-- `GadgetFinder.__filter_for_big_binary_or_elf32` (lines 364-386):
keep the single candidate only when every one of its instruction texts
matches some whitelist pattern. -/
def filter_for_big_binary_or_elf32 (g : GadgetInput) : List GadgetInput :=
  if g.insns.all validBigBinary then [g] else []

/-- The `for i in range(self.depth)` loop of `__find_all_gadgets`
(lines 336-360) for one pattern match: `ref` is the match's file
offset in the section data, `size` the pattern's match length, `align`
its alignment, `base` the section's load address
(`elf.address + p_vaddr` for DYN, else `p_vaddr`).  `decode bytes
addr` is the capstone capability returning the decoded instruction
texts (`mnemonic + " " + op_str`), empty on failure. -/
def candidatesAt (decode : List Nat → Int → List String) (needFilter : Bool)
    (data : List Nat) (base : Int) (ref : Nat) (size : Nat) (align : Nat)
    (depth : Nat) : List GadgetInput :=
  (List.range depth).flatMap (fun i =>
    let startAddress : Int := base + (ref : Int) - (i : Int) * (align : Int)
    let bytes := pySlice data ((ref : Int) - (i : Int) * (align : Int))
      ((ref : Int) + (size : Int))
    let insns := decode bytes startAddress
    if insns.length > 0 then
      if startAddress % (align : Int) = 0 then
        let onegad : GadgetInput := ⟨startAddress, insns, bytes⟩
        if needFilter then filter_for_big_binary_or_elf32 onegad
        else [onegad]
      else []
    else [])

/-- The non-cached path of `__find_all_gadgets` (lines 333-362): for
every pattern `(matches, size, align)` of the selected category — the
regex search over the raw bytes is the external `re.finditer`, so each
pattern carries its list of match offsets — emit all backward
candidates. -/
def findAllGadgetsScan (decode : List Nat → Int → List String)
    (needFilter : Bool) (data : List Nat) (base : Int) (depth : Nat)
    (pats : List (List Nat × Nat × Nat)) : List GadgetInput :=
  pats.flatMap (fun p =>
    p.1.flatMap (fun ref =>
      candidatesAt decode needFilter data base ref p.2.1 p.2.2 depth))

/-! ## x86 structural filter (lines 388-424) -/

/-- Python `s.split(" ")[0]`: the characters before the first space. -/
def splitSpaceHead (s : String) : String :=
  String.mk (s.toList.takeWhile (fun c => c ≠ ' '))

/-- Python `s.split()[0]` (split on whitespace runs): the first
maximal non-whitespace token, after skipping leading whitespace. -/
def splitWsHead (s : String) : String :=
  String.mk ((s.toList.dropWhile (fun c => c.isWhitespace)).takeWhile
    (fun c => !c.isWhitespace))

/-- The blacklist `bl` of `__checkInstructionBlackListedX86`
(line 389). -/
def blackListX86 : List String :=
  ["db", "int3", "call", "jmp", "nop", "jne", "jg", "jge"]

/-- `GadgetFinder.__checkInstructionBlackListedX86` (lines 388-394). -/
def checkInstructionBlackListedX86 (insts : List String) : Bool :=
  insts.any (fun inst => blackListX86.any (fun b => splitSpaceHead inst = b))

/-- `GadgetFinder.__checkMultiBr` (lines 396-401). -/
def checkMultiBr (insts : List String) (br : List String) : Nat :=
  insts.countP (fun inst => br.contains (splitWsHead inst))

/-- `br` as `__passCleanX86` computes it (lines 406-409). -/
def brFor (gadget_filter : String) : List String :=
  if gadget_filter = "all" then ["ret", "int", "sysenter", "jmp", "call"]
  else [gadget_filter]

/-- Non-overlapping occurrences of the substring "ret"
(`re.finditer("ret", ..)`, line 421). -/
def countRetOcc : List Char → Nat
  | 'r' :: 'e' :: 't' :: rest => countRetOcc rest + 1
  | _ :: rest => countRetOcc rest
  | [] => 0

/-- `"; ".join(gadget["gadget"])` (lines 421, 429). -/
def joinedText (g : GadgetInput) : String := String.intercalate "; " g.insns

/-- The per-gadget body of `__passCleanX86`'s loop (lines 411-423): the
five `continue` conditions, in source order. -/
def passCleanKeep (br : List String) (multibr : Bool) (g : GadgetInput) :
    Bool :=
  let insts := g.insns
  if insts.length = 1 && !br.contains (splitSpaceHead (insts.headD "")) then
    false
  else if !br.contains (splitSpaceHead (insts.getLastD "")) then false
  else if checkInstructionBlackListedX86 insts then false
  else if !multibr && decide (checkMultiBr insts br > 1) then false
  else if decide (countRetOcc (joinedText g).toList > 1) then false
  else true

/-- `GadgetFinder.__passCleanX86` (lines 403-424). -/
def passCleanX86 (br : List String) (multibr : Bool)
    (gadgets : List GadgetInput) : List GadgetInput :=
  gadgets.filter (passCleanKeep br multibr)

/-! ## Deduplication (lines 426-434) -/

/-- Python `s in seen` for the dedup accumulator (list membership by
string equality). -/
def strMem (s : String) : List String → Bool
  | [] => false
  | t :: rest => (t = s) || strMem s rest

/-- `GadgetFinder.__deduplicate`'s loop with its `insts` accumulator of
already-seen joined instruction texts. -/
def dedupAux (seen : List String) : List GadgetInput → List GadgetInput
  | [] => []
  | g :: rest =>
      if strMem (joinedText g) seen then dedupAux seen rest
      else g :: dedupAux (joinedText g :: seen) rest

/-- `GadgetFinder.__deduplicate` (lines 426-434). -/
def deduplicate (gadgets : List GadgetInput) : List GadgetInput :=
  dedupAux [] gadgets

/-- The first element of the list whose joined instruction text equals
`s` (specification helper for the dedup claim). -/
def firstWith (s : String) : List GadgetInput → Option GadgetInput
  | [] => none
  | g :: rest => if joinedText g = s then some g else firstWith s rest

/-! ## Theorems -/

/-- **C1.** For every candidate gadget, `classify` materializes a
Classified Gadget only if the recorded instruction-pointer displacement
equals the recorded stack-pointer displacement minus the architecture
word size (`ip_move == move - word_size`, line 149); whenever that
equality fails for the recorded values, `classify` returns `none`
(line 152). -/
theorem classify_only_if_ip_eq_move_sub_align
    (symExec : List Nat → Option (List MEntry)) (align : Int)
    (g : GadgetInput) :
    (∀ gad, classify symExec align g = some gad →
      ∃ entries reg move ip, symExec g.bytes = some entries ∧
        classifyLoop entries [] 0 0 = some (reg, move, ip) ∧
        ip = move - align) ∧
    (∀ entries reg move ip, symExec g.bytes = some entries →
      classifyLoop entries [] 0 0 = some (reg, move, ip) →
      ip ≠ move - align → classify symExec align g = none) := by
  constructor
  · intro gad h
    cases hse : symExec g.bytes with
    | none => simp [classify, hse] at h
    | some entries =>
      cases hcl : classifyLoop entries [] 0 0 with
      | none => simp [classify, hse, hcl] at h
      | some st =>
        obtain ⟨reg, move, ip⟩ := st
        by_cases hip : ip = move - align
        · exact ⟨entries, reg, move, ip, rfl, hcl, hip⟩
        · simp [classify, hse, hcl, hip] at h
  · intro entries reg move ip hse hcl hip
    simp [classify, hse, hcl, hip]

/-- Witness for C1: a mapper whose stack pointer moves by 8 while the
instruction pointer reads from displacement 0 fails the acceptance
test on i386 (word size 4), so `classify` returns `none`. -/
theorem classify_only_if_ip_eq_move_sub_align_witness :
    classify
      (fun _ => some [(⟨"esp", false⟩, AExpr.lin "esp" 8),
                      (⟨"eip", false⟩, AExpr.mem ["esp"] 0 32)])
      4 ⟨100, ["ret"], [195]⟩ = none :=
  (classify_only_if_ip_eq_move_sub_align
      (fun _ => some [(⟨"esp", false⟩, AExpr.lin "esp" 8),
                      (⟨"eip", false⟩, AExpr.mem ["esp"] 0 32)])
      4 ⟨100, ["ret"], [195]⟩).2
    _ [] 8 0 rfl (by decide) (by decide)

/-- **C9.** For every byte string whose lifting yields at least one
basic block, `sym_exec_gadget_and_get_mapper` returns during the first
iteration of its block loop: the result is exactly the composition of
the empty mapper with the first block's (possibly call-neutralized)
map — `none` inside when that composition fails — and every later
block is never incorporated (replacing the tail by nothing leaves the
result unchanged). -/
theorem sym_exec_returns_in_first_iteration
    (lift : List Nat → List ABlock) (neut : Nat → Nat)
    (comp : Nat → Nat → Option Nat) (emptyMapper : Nat) (code : List Nat)
    (b : ABlock) (rest : List ABlock) (h : lift code = b :: rest) :
    sym_exec_gadget_and_get_mapper lift neut comp emptyMapper code
      = .ok (comp emptyMapper
          (if b.lastIsCall then neut b.blockMap else b.blockMap)) ∧
    symExecLoop neut comp emptyMapper (b :: rest)
      = symExecLoop neut comp emptyMapper [b] := by
  refine ⟨?_, rfl⟩
  unfold sym_exec_gadget_and_get_mapper
  rw [h]
  rfl

/-- Witness for C9: two blocks; the second block's map (handle 2) is
dropped and the result is the composition with block 1 alone. -/
theorem sym_exec_returns_in_first_iteration_witness :
    sym_exec_gadget_and_get_mapper (fun _ => [⟨1, false⟩, ⟨2, false⟩])
      (fun m => m) (fun mp bm => some (mp + bm)) 0 [144]
      = .ok (some 1) :=
  (sym_exec_returns_in_first_iteration (fun _ => [⟨1, false⟩, ⟨2, false⟩])
      (fun m => m) (fun mp bm => some (mp + bm)) 0 [144]
      ⟨1, false⟩ [⟨2, false⟩] rfl).1

/-- **C10.** For every gadget on which `classify` returns a non-none
Classified Gadget, `GadgetClassifier.__call__` raises a `NameError`
(it appends to the undefined global name `outs`, line 88), so no
gadget is ever added to the instance's `self.outs` list through
`__call__`: any non-error return leaves the list unchanged. -/
theorem classifier_call_raises_nameerror
    (symExec : List Nat → Option (List MEntry)) (align : Int)
    (outsState : List Gadget) (g : GadgetInput) :
    (classify symExec align g ≠ none →
      classifierCall symExec align outsState g
        = .error "NameError: global name outs is not defined") ∧
    (∀ outs', classifierCall symExec align outsState g = .ok outs' →
      outs' = outsState) := by
  cases h : classify symExec align g with
  | none =>
    refine ⟨fun hc => absurd rfl hc, fun outs' h' => ?_⟩
    simp [classifierCall, h] at h'
    exact h'.symm
  | some gad =>
    refine ⟨fun _ => by simp [classifierCall, h], fun outs' h' => ?_⟩
    simp [classifierCall, h] at h'

/-- Witness for C10: a well-formed ret-gadget mapper is classified
successfully, and `__call__` on it raises the `NameError`. -/
theorem classifier_call_raises_nameerror_witness :
    classifierCall
      (fun _ => some [(⟨"esp", false⟩, AExpr.lin "esp" 4),
                      (⟨"eip", false⟩, AExpr.mem ["esp"] 0 32)])
      4 [] ⟨100, ["ret"], [195]⟩
      = .error "NameError: global name outs is not defined" :=
  (classifier_call_raises_nameerror
      (fun _ => some [(⟨"esp", false⟩, AExpr.lin "esp" 4),
                      (⟨"eip", false⟩, AExpr.mem ["esp"] 0 32)])
      4 [] ⟨100, ["ret"], [195]⟩).1 (by decide)

lemma odInsert_ne_nil (l : List (Int × Int)) (p : Int × Int) :
    odInsert l p ≠ [] := by
  match l, p with
  | [], p => simp [odInsert]
  | (k, v) :: rest, (k', v') =>
    simp only [odInsert]
    split <;> simp

lemma foldl_odInsert_ne_nil (l : List (Int × Int)) (acc : List (Int × Int))
    (h : acc ≠ []) : l.foldl odInsert acc ≠ [] := by
  induction l generalizing acc with
  | nil => simpa using h
  | cons p rest ih => exact ih (odInsert acc p) (odInsert_ne_nil acc p)

lemma pySortedDict_ne_nil (l : List (Int × Int)) (h : l ≠ []) :
    pySortedDict l ≠ [] := by
  unfold pySortedDict
  cases hms : l.mergeSort (fun a b => a.1 ≤ b.1) with
  | nil =>
    exfalso
    apply h
    have := List.mergeSort_perm l (fun a b => a.1 ≤ b.1)
    rw [hms] at this
    exact this.symm.eq_nil
  | cons p rest =>
    simp only [List.foldl_cons]
    exact foldl_odInsert_ne_nil rest (odInsert [] p) (odInsert_ne_nil [] p)

lemma verifyLoop_some_stack_ne_nil
    (prove : Int → AExpr → Option (List (Int × Int)))
    (conditions : List (String × Int)) :
    ∀ (entries : List MEntry) (move : Int) (stack : List (Int × Int))
      (m : Int) (s : List (Int × Int)),
      verifyLoop prove conditions entries move stack = some (m, s) →
      s ≠ [] := by
  intro entries
  induction entries with
  | nil =>
    intro move stack m s h
    by_cases hs : stack = []
    · simp [verifyLoop, hs] at h
    · simp only [verifyLoop, if_neg hs, Option.some.injEq, Prod.mk.injEq] at h
      rw [← h.2]
      exact pySortedDict_ne_nil stack hs
  | cons e rest ih =>
    intro move stack m s h
    obtain ⟨out, c⟩ := e
    simp only [verifyLoop] at h
    split at h
    · exact ih _ _ _ _ h
    · cases halk : alookup conditions out.name with
      | none => simp only [halk] at h; exact ih _ _ _ _ h
      | some cond =>
        simp only [halk] at h
        cases hp : prove cond c with
        | none => simp [hp] at h
        | some cells =>
          simp only [hp] at h
          split at h
          · exact ih _ _ _ _ h
          · exact ih _ _ _ _ h

/-- **C2.** The spec's Chain Verifier contract — `verify(chain,
post_conditions) -> Option (total_move, stack_layout)` — is never met
by `GadgetSolver.__call__`: whatever the symbolic-execution and solver
capabilities do, `__call__` always raises.  When `verify_path` returns
`None` the tuple unpacking raises `TypeError`; when it succeeds its
stack layout is necessarily nonempty, so `return (move, sorted_stack)`
is reached and raises `NameError` (the name `sorted_stack` is
undefined, line 207). -/
theorem solver_call_always_raises
    (symExec : List Nat → Option (List MEntry))
    (prove : Int → AExpr → Option (List (Int × Int)))
    (path : List Gadget) (conditions : List (String × Int)) :
    ∃ e, solverCall symExec prove path conditions = Except.error e := by
  cases hse : symExec ((path.map (fun g => g.bytes)).flatten) with
  | none =>
    exact ⟨"TypeError: NoneType object is not iterable",
      by simp [solverCall, verify_path, hse]⟩
  | some entries =>
    cases hv : verifyLoop prove conditions entries 0 [] with
    | none =>
      exact ⟨"TypeError: cannot unpack non-iterable NoneType",
        by simp [solverCall, verify_path, hse, hv]⟩
    | some ms =>
      obtain ⟨m, s⟩ := ms
      have hs : s ≠ [] :=
        verifyLoop_some_stack_ne_nil prove conditions entries 0 [] m s hv
      exact ⟨"NameError: global name sorted_stack is not defined",
        by simp [solverCall, verify_path, hse, hv, hs]⟩

lemma alookup_storeWrite_self (store : CacheStore) (k : String) (v : String) :
    alookup (storeWrite store k v) k = some v := by
  induction store with
  | nil => simp [storeWrite, alookup]
  | cons e rest ih =>
    obtain ⟨k', v'⟩ := e
    by_cases hk : k' = k
    · simp [storeWrite, alookup, hk]
    · simp [storeWrite, alookup, hk, ih]

/-- **C3.** Saving a gadget mapping and loading it back under the same
binary identity (same content hash, hence same file and same nominal
base) returns the saved mapping unchanged; loading an identity that
was never saved returns none; and loading after the binary has been
re-based to a different runtime address returns the entries re-based
file-relative-correctly (`k - save_address + load_address`), so the
round trip is load-address-invariant.  `hparse` is the
`eval`/`repr` round trip for the value the save actually wrote. -/
theorem cache_roundtrip
    (serialize : CacheMapping → String) (parse : String → Option CacheMapping)
    (store : CacheStore) (elf elf' : ElfFile) (data : CacheMapping)
    (hparse : parse (serialize (data.map
        (fun kv => (kv.1 + elf.load_addr - elf.address, kv.2))))
      = some (data.map (fun kv => (kv.1 + elf.load_addr - elf.address, kv.2))))
    (hsha : elf'.sha = elf.sha) (hla : elf'.load_addr = elf.load_addr) :
    (cache_load parse (cache_save serialize store elf data) elf'
      = .ok (some (data.map
          (fun kv => (kv.1 - elf.address + elf'.address, kv.2)))) ∧
     (elf'.address = elf.address →
       cache_load parse (cache_save serialize store elf data) elf'
         = .ok (some data))) ∧
    (∀ e : ElfFile, alookup store (cacheFileName e) = none →
       cache_load parse store e = .ok none) := by
  have hname : cacheFileName elf' = cacheFileName elf := by
    simp [cacheFileName, hsha]
  have hlk : alookup (cache_save serialize store elf data) (cacheFileName elf')
      = some (serialize (data.map
          (fun kv => (kv.1 + elf.load_addr - elf.address, kv.2)))) := by
    rw [hname]
    exact alookup_storeWrite_self store (cacheFileName elf) _
  have hmain : cache_load parse (cache_save serialize store elf data) elf'
      = .ok (some (data.map
          (fun kv => (kv.1 - elf.address + elf'.address, kv.2)))) := by
    unfold cache_load
    simp only [hlk, hparse, List.map_map, Except.ok.injEq, Option.some.injEq]
    apply List.map_congr_left
    intro kv _
    obtain ⟨a, b⟩ := kv
    simp only [Function.comp_apply, Prod.mk.injEq, hla]
    refine ⟨by omega, by simp⟩
  refine ⟨⟨hmain, ?_⟩, ?_⟩
  · intro haddr
    rw [hmain, haddr]
    have hid : data.map (fun kv => (kv.1 - elf.address + elf.address, kv.2))
        = data := by
      conv_rhs => rw [← List.map_id data]
      apply List.map_congr_left
      intro kv _
      obtain ⟨a, b⟩ := kv
      simp only [id_eq, Prod.mk.injEq]
      refine ⟨by omega, by simp⟩
    rw [hid]
  · intro e he
    unfold cache_load
    rw [he]

/-- Witness for C3: a mapping `{5: bytes}` saved for a binary loaded
at 200 (nominal base 100) and loaded back for the same file re-based
to 300 comes back as `{105: bytes}` — the file-relative-correct
re-basing of the saved entry. -/
theorem cache_roundtrip_witness :
    cache_load (fun _ => some [((-95 : Int), [1, 2])])
      (cache_save (fun _ => "s") [] ⟨"h", 100, 200⟩ [((5 : Int), [1, 2])])
      ⟨"h", 100, 300⟩ = .ok (some [((105 : Int), [1, 2])]) := by
  have h := (cache_roundtrip (fun _ => "s")
      (fun _ => some [((-95 : Int), [1, 2])])
      [] ⟨"h", 100, 200⟩ ⟨"h", 100, 300⟩ [((5 : Int), [1, 2])]
      (by decide) rfl rfl).1.1
  simpa using h

/-- **C7 (counterexample).** A cache entry that exists but does not
deserialize is not treated as a miss: `__cache_load` has no handler
around `eval(file(filename).read())`, so the error propagates instead
of returning none. -/
theorem cache_load_corrupt_raises_counterexample :
    cache_load (fun _ => none) [("h", "garbage")] ⟨"h", 0, 0⟩
      = .error "eval raised on corrupt cache entry" ∧
    cache_load (fun _ => none) [("h", "garbage")] ⟨"h", 0, 0⟩
      ≠ .ok none := by
  have h1 : cache_load (fun _ => none) [("h", "garbage")] ⟨"h", 0, 0⟩
      = .error "eval raised on corrupt cache entry" := rfl
  exact ⟨h1, by rw [h1]; exact fun h => Except.noConfusion h⟩

/-- **C7 (amended).** Only a missing cache file is treated as a miss
(load returns none); when the cache file exists but its contents fail
to deserialize, the `eval` error propagates uncaught — the load
raises rather than behaving as a miss. -/
theorem cache_load_miss_only_when_absent
    (parse : String → Option CacheMapping) (store : CacheStore)
    (elf : ElfFile) :
    (alookup store (cacheFileName elf) = none →
      cache_load parse store elf = .ok none) ∧
    (∀ content, alookup store (cacheFileName elf) = some content →
      parse content = none →
      cache_load parse store elf
        = .error "eval raised on corrupt cache entry") := by
  constructor
  · intro h
    unfold cache_load
    rw [h]
  · intro content h hp
    unfold cache_load
    simp only [h, hp]

/-- Witness for C7 (amended): a concrete store with an unparsable
entry makes the load raise. -/
theorem cache_load_miss_only_when_absent_witness :
    cache_load (fun _ => none) [("k", "bad")] ⟨"k", 4, 8⟩
      = .error "eval raised on corrupt cache entry" :=
  (cache_load_miss_only_when_absent (fun _ => none) [("k", "bad")]
    ⟨"k", 4, 8⟩).2 "bad" rfl rfl

/-- **C4.** For a pattern match at file offset `ref` with alignment
`align` and backward-search depth `depth`: every candidate the scanner
produces starts at address `base + ref - i*align` for some
`i ∈ [0, depth)`, its instruction list is the (nonempty) decoding of
the byte range from that backward start through the end of the match,
and its start address is a multiple of `align`; conversely (without
the big-binary inline filter) every `i ∈ [0, depth)` whose byte range
decodes nonempty and whose start address is aligned yields exactly
that candidate. -/
theorem candidatesAt_offsets (decode : List Nat → Int → List String)
    (needFilter : Bool) (data : List Nat) (base : Int) (ref : Nat)
    (size : Nat) (align : Nat) (depth : Nat) :
    (∀ g ∈ candidatesAt decode needFilter data base ref size align depth,
      ∃ i, i < depth ∧
        g.address = base + (ref : Int) - (i : Int) * (align : Int) ∧
        g.insns = decode (pySlice data ((ref : Int) - (i : Int) * (align : Int))
          ((ref : Int) + (size : Int))) g.address ∧
        g.insns ≠ [] ∧
        g.address % (align : Int) = 0) ∧
    (needFilter = false → ∀ i, i < depth →
      decode (pySlice data ((ref : Int) - (i : Int) * (align : Int))
        ((ref : Int) + (size : Int)))
        (base + (ref : Int) - (i : Int) * (align : Int)) ≠ [] →
      (base + (ref : Int) - (i : Int) * (align : Int)) % (align : Int) = 0 →
      (⟨base + (ref : Int) - (i : Int) * (align : Int),
        decode (pySlice data ((ref : Int) - (i : Int) * (align : Int))
          ((ref : Int) + (size : Int)))
          (base + (ref : Int) - (i : Int) * (align : Int)),
        pySlice data ((ref : Int) - (i : Int) * (align : Int))
          ((ref : Int) + (size : Int))⟩ : GadgetInput)
        ∈ candidatesAt decode needFilter data base ref size align depth) := by
  constructor
  · intro g hg
    simp only [candidatesAt, List.mem_flatMap, List.mem_range] at hg
    obtain ⟨i, hi, hmem⟩ := hg
    refine ⟨i, hi, ?_⟩
    split at hmem
    case isFalse => simp at hmem
    case isTrue hlen =>
      split at hmem
      case isFalse => simp at hmem
      case isTrue hmod =>
        have hne : decode (pySlice data ((ref : Int) - (i : Int) * (align : Int))
            ((ref : Int) + (size : Int)))
            (base + (ref : Int) - (i : Int) * (align : Int)) ≠ [] :=
          List.ne_nil_of_length_pos hlen
        split at hmem
        case isTrue =>
          unfold filter_for_big_binary_or_elf32 at hmem
          split at hmem
          case isTrue =>
            rw [List.mem_singleton] at hmem
            subst hmem
            exact ⟨rfl, rfl, hne, hmod⟩
          case isFalse => simp at hmem
        case isFalse =>
          rw [List.mem_singleton] at hmem
          subst hmem
          exact ⟨rfl, rfl, hne, hmod⟩
  · intro hnf i hi hdec hmod
    simp only [candidatesAt, List.mem_flatMap, List.mem_range]
    refine ⟨i, hi, ?_⟩
    have hlen : (decode (pySlice data ((ref : Int) - (i : Int) * (align : Int))
        ((ref : Int) + (size : Int)))
        (base + (ref : Int) - (i : Int) * (align : Int))).length > 0 :=
      List.length_pos.mpr hdec
    rw [hnf]
    simp only [hlen, hmod, if_pos, if_true]
    simp

/-- Witness for C4: with a decoder that accepts any nonempty byte
range, a match at offset 4 (pattern length 1, alignment 1, depth 3)
produces the backward candidate at offset 2 (`i = 2`). -/
theorem candidatesAt_offsets_witness :
    (⟨2, ["insn"], [2, 3, 4]⟩ : GadgetInput) ∈
      candidatesAt (fun bs _ => if bs.length > 0 then ["insn"] else [])
        false [0, 1, 2, 3, 4, 5, 6, 7] 0 4 1 1 3 := by
  have h := (candidatesAt_offsets
      (fun bs _ => if bs.length > 0 then ["insn"] else [])
      false [0, 1, 2, 3, 4, 5, 6, 7] 0 4 1 1 3).2 rfl 2
      (by decide) (by decide) (by decide)
  simpa using h

/-- **C5.** With multi-branch disabled, the x86 structural filter drops
every candidate that (a) is a single instruction whose mnemonic is
outside the active category set `br`, (b) ends in an instruction whose
mnemonic is outside `br`, (c) contains an instruction whose mnemonic is
blacklisted (`db, int3, call, jmp, nop, jne, jg, jge`), (d) contains
more than one control transfer from `br`, or (e) has more than one
"ret" occurrence in its joined instruction text; in particular a
candidate with a `jmp` mid-sequence under category "ret" is rejected. -/
theorem passCleanX86_rejects (br : List String) (gs : List GadgetInput)
    (g : GadgetInput)
    (hre : (g.insns.length = 1 ∧
              br.contains (splitSpaceHead (g.insns.headD "")) = false)
         ∨ br.contains (splitSpaceHead (g.insns.getLastD "")) = false
         ∨ checkInstructionBlackListedX86 g.insns = true
         ∨ checkMultiBr g.insns br > 1
         ∨ countRetOcc (joinedText g).toList > 1) :
    g ∉ passCleanX86 br false gs ∧
    ∀ (a : Int) (bs : List Nat),
      passCleanX86 (brFor "ret") false
        [⟨a, ["pop eax", "jmp rax", "ret"], bs⟩] = [] := by
  constructor
  · intro hmem
    rw [passCleanX86, List.mem_filter] at hmem
    have hfalse : passCleanKeep br false g = false := by
      unfold passCleanKeep
      simp only []
      split_ifs with h1 h2 h3 h4 h5
      · rfl
      · rfl
      · rfl
      · rfl
      · rfl
      · exfalso
        rcases hre with ⟨hlen, hcon⟩ | h | h | h | h
        · exact h1 (by rw [hlen, hcon]; rfl)
        · exact h2 (by rw [h]; rfl)
        · exact h3 h
        · exact h4 (by rw [decide_eq_true h]; rfl)
        · exact h5 (decide_eq_true h)
    rw [hfalse] at hmem
    exact Bool.false_ne_true hmem.2
  · intro a bs
    rfl

/-- Witness for C5: the `jmp`-mid-sequence candidate under category
"ret" is rejected. -/
theorem passCleanX86_rejects_witness :
    passCleanX86 (brFor "ret") false
      [⟨1, ["pop eax", "jmp rax", "ret"], []⟩] = [] :=
  (passCleanX86_rejects (brFor "ret")
    [⟨1, ["pop eax", "jmp rax", "ret"], []⟩]
    ⟨1, ["pop eax", "jmp rax", "ret"], []⟩
    (Or.inr (Or.inr (Or.inl (by decide))))).2 1 []

lemma mem_dedupAux (x : GadgetInput) :
    ∀ (gs : List GadgetInput) (seen : List String),
      x ∈ dedupAux seen gs ↔
        (strMem (joinedText x) seen = false ∧
         firstWith (joinedText x) gs = some x) := by
  intro gs
  induction gs with
  | nil => intro seen; simp [dedupAux, firstWith]
  | cons g rest ih =>
    intro seen
    simp only [dedupAux, firstWith]
    by_cases htx : joinedText g = joinedText x
    · rw [if_pos htx]
      cases hs : strMem (joinedText g) seen with
      | true =>
        have hsx : strMem (joinedText x) seen = true := htx ▸ hs
        simp only [if_true, ih seen, hsx]
        constructor
        · rintro ⟨hc, -⟩; cases hc
        · rintro ⟨hc, -⟩; cases hc
      | false =>
        simp only [Bool.false_eq_true, if_false, List.mem_cons]
        by_cases hxg : x = g
        · subst hxg
          simp only [true_or, true_iff, Option.some.injEq]
          refine ⟨hs, by simp⟩
        · constructor
          · intro hmem
            exfalso
            rcases hmem with h | h
            · exact hxg h
            · have hc := ((ih (joinedText g :: seen)).mp h).1
              have hT : strMem (joinedText x) (joinedText g :: seen)
                  = true := by
                simp [strMem, htx]
              rw [hT] at hc
              cases hc
          · rintro ⟨-, hfx⟩
            exact absurd (Option.some.inj hfx).symm hxg
    · rw [if_neg htx]
      have hxg : ¬ (x = g) := fun h => htx (by rw [h])
      cases hs : strMem (joinedText g) seen with
      | true => simp only [if_true, ih seen]
      | false =>
        simp only [Bool.false_eq_true, if_false, List.mem_cons, hxg,
          false_or, ih (joinedText g :: seen), strMem]
        have hd : decide (joinedText g = joinedText x) = false :=
          decide_eq_false htx
        rw [hd]
        simp

lemma dedupAux_pairwise :
    ∀ (gs : List GadgetInput) (seen : List String),
      (dedupAux seen gs).Pairwise (fun a b => joinedText a ≠ joinedText b) := by
  intro gs
  induction gs with
  | nil => intro seen; simp [dedupAux]
  | cons g rest ih =>
    intro seen
    simp only [dedupAux]
    cases hs : strMem (joinedText g) seen with
    | true => simpa using ih seen
    | false =>
      simp only [Bool.false_eq_true, if_false]
      refine List.Pairwise.cons ?_ (ih (joinedText g :: seen))
      intro b hb heq
      have hc := ((mem_dedupAux b rest (joinedText g :: seen)).mp hb).1
      simp [strMem, heq] at hc

lemma firstWith_exists (y : GadgetInput) :
    ∀ gs : List GadgetInput, y ∈ gs →
      ∃ x, firstWith (joinedText y) gs = some x ∧
        joinedText x = joinedText y := by
  intro gs
  induction gs with
  | nil => intro h; cases h
  | cons g rest ih =>
    intro hy
    by_cases hg : joinedText g = joinedText y
    · exact ⟨g, by simp [firstWith, hg], hg⟩
    · have hyr : y ∈ rest := by
        rcases List.mem_cons.mp hy with h | h
        · exact absurd (by rw [h]) hg
        · exact h
      obtain ⟨x, hx1, hx2⟩ := ih hyr
      exact ⟨x, by simp [firstWith, hg, hx1], hx2⟩

/-- **C6.** Deduplication keeps exactly one candidate per distinct
joined mnemonic+operand instruction text — the first occurrence in
input order, regardless of addresses: membership in the output is
equivalent to being the first input element with one's joined text, no
two output entries share a joined text, and every input text is still
represented. -/
theorem deduplicate_first_occurrence (gs : List GadgetInput) :
    ((deduplicate gs).Pairwise (fun a b => joinedText a ≠ joinedText b)) ∧
    (∀ x, x ∈ deduplicate gs ↔ firstWith (joinedText x) gs = some x) ∧
    (∀ y ∈ gs, ∃ x, x ∈ deduplicate gs ∧ joinedText x = joinedText y) := by
  refine ⟨dedupAux_pairwise gs [], fun x => ?_, fun y hy => ?_⟩
  · rw [deduplicate, mem_dedupAux x gs []]
    simp [strMem]
  · obtain ⟨x, hx1, hx2⟩ := firstWith_exists y gs hy
    refine ⟨x, ?_, hx2⟩
    rw [deduplicate, mem_dedupAux x gs []]
    exact ⟨rfl, by rw [hx2]; exact hx1⟩

/-- Witness for C6: of two candidates with identical text "ret" at
different addresses, exactly the first survives. -/
theorem deduplicate_first_occurrence_witness :
    (⟨1, ["ret"], [195]⟩ : GadgetInput) ∈
      deduplicate [⟨1, ["ret"], [195]⟩, ⟨2, ["ret"], [195]⟩] :=
  ((deduplicate_first_occurrence
      [⟨1, ["ret"], [195]⟩, ⟨2, ["ret"], [195]⟩]).2.1
    ⟨1, ["ret"], [195]⟩).mpr (by decide)

lemma filter_flatMap {α β : Type} (l : List α) (f : α → List β)
    (p : β → Bool) :
    (l.flatMap f).filter p = l.flatMap (fun x => (f x).filter p) := by
  induction l with
  | nil => rfl
  | cons a rest ih => simp [List.flatMap_cons, List.filter_append, ih]

lemma big_filter_eq_singleton_filter (g : GadgetInput) :
    filter_for_big_binary_or_elf32 g
      = [g].filter (fun x => x.insns.all validBigBinary) := by
  unfold filter_for_big_binary_or_elf32
  by_cases h : g.insns.all validBigBinary
  · simp [h, List.filter_cons]
  · simp [h, List.filter_cons]

/-- **C8 (counterexample).** The claim fails on two counts.  (1) A
first binary of exactly 100 000 bytes does not *exceed* 100 000 bytes,
yet `need_filter` is set (`>=`, line 274).  (2) The filter applied
inline is `__filter_for_big_binary_or_elf32`, not the §4.4 structural
filter: the single-instruction candidate `pop eax` is kept by the
inline whitelist filter although the §4.4 filter (`__passCleanX86`)
rejects it. -/
theorem need_filter_counterexample :
    (needFilterOf CapArch.x86 (MAX_SIZE * 1000) = true ∧
      ¬ (MAX_SIZE * 1000 > 100000)) ∧
    (candidatesAt (fun bs _ => if bs = [88] then ["pop eax"] else [])
        true [88] 0 0 1 1 1
      = [⟨0, ["pop eax"], [88]⟩] ∧
     passCleanX86 (brFor "all") false [⟨0, ["pop eax"], [88]⟩] = []) := by
  refine ⟨⟨rfl, by norm_num [MAX_SIZE]⟩, rfl, rfl⟩

/-- **C8 (amended).** `need_filter` is set exactly when the capstone
architecture is x86 and the first binary's size is at least (not
strictly above) 100 000 bytes; and the filter then applied inline to
each candidate as it is produced is the big-binary whitelist filter
(`pop`/`add sp`/`ret`/`leave`/`mov`/`xchg`/`int 0x80`/`syscall`/
`sysenter`), which is distinct from the §4.4 structural filter. -/
theorem need_filter_amended (arch : CapArch) (size : Nat)
    (decode : List Nat → Int → List String) (data : List Nat) (base : Int)
    (ref : Nat) (sz : Nat) (align : Nat) (depth : Nat) :
    (needFilterOf arch size = true ↔
      (arch = CapArch.x86 ∧ MAX_SIZE * 1000 ≤ size)) ∧
    (candidatesAt decode true data base ref sz align depth
      = (candidatesAt decode false data base ref sz align depth).filter
          (fun g => g.insns.all validBigBinary)) := by
  constructor
  · simp [needFilterOf]
  · unfold candidatesAt
    rw [filter_flatMap]
    congr 1
    funext i
    simp only []
    by_cases hA : (decode (pySlice data ((ref : Int) - (i : Int) * (align : Int))
        ((ref : Int) + (sz : Int)))
        (base + (ref : Int) - (i : Int) * (align : Int))).length > 0
    · by_cases hB : (base + (ref : Int) - (i : Int) * (align : Int))
          % (align : Int) = 0
      · rw [if_pos hA, if_pos hB, if_pos hA, if_pos hB]
        exact big_filter_eq_singleton_filter _
      · rw [if_pos hA, if_neg hB, if_pos hA, if_neg hB]
        rfl
    · rw [if_neg hA, if_neg hA]
      rfl

/-- Witness for C8 (amended): a 100 000-byte x86 binary turns the
inline filter on. -/
theorem need_filter_amended_witness :
    needFilterOf CapArch.x86 100000 = true :=
  ((need_filter_amended CapArch.x86 100000 (fun _ _ => []) [] 0 0 0 0
      0).1).mpr ⟨rfl, by norm_num [MAX_SIZE]⟩

end Binjitsu
